import Mathlib

/-!
Users front end (`src/frontend/script.js`)

A shallow embedding of the page script: the page is a record of the DOM parts the
script reads and writes, every function of the script is a function on that record,
and the answers of the network are arguments of the function that awaits them.

Built-ins of the platform that the script calls are modelled next to their call sites:
`Array.prototype.sort` (stable), `DOMTokenList.add/remove`, `addEventListener`,
`setTimeout`, number/string conversion of `textContent`.  `String.prototype.localeCompare`
is a parameter `cmp` of the functions that sort.

Time is a clock in milliseconds on the page.  A run of a function of the script does not
move the clock; `advance` moves it between runs and fires the timers that are due.
-/

namespace Frontend

/-! ## Data model -/

/-- One user record of the list endpoint; `id` is kept in its text form. -/
structure User where
  id : String
  username : String
  email : String
deriving DecidableEq, Repr

/-- JSON body of `GET /users`. -/
structure UsersPayload where
  total : Int
  users : List User
deriving Repr

/-- JSON body of `POST /add_user`; an absent property reads as `undefined`. -/
structure AddPayload where
  message : Option String
  error : Option String
deriving Repr

/-- What an awaited `fetch` followed by `response.json()` can give:
the fetch rejects, or a response arrives with its `ok` flag and a body
(`none` when `response.json()` rejects). -/
inductive FetchOutcome (β : Type) where
  | networkError : FetchOutcome β
  | response (ok : Bool) (body : Option β) : FetchOutcome β
deriving Repr

/-- The functions of the script that are bound as event handlers.  The arrow function
created by `removeFocus` is a new function object on every creation, told apart by a
serial number. -/
inductive Handler where
  | addUser : Handler
  | handleRowClick : Handler
  | blurActive (serial : Nat) : Handler
deriving DecidableEq, Repr

/-- The event-target part of an element: `dataset.listenerAdded` and the list of
bound (event name, handler) pairs in the order of binding. -/
structure Element (H : Type) where
  listenerAdded : Option String
  listeners : List (String × H)
deriving DecidableEq, Repr

/-- A row of the table body: text of the row-number cell and of the username cell. -/
structure Row where
  th : String
  td : String
deriving DecidableEq, Repr

/-- A child node of the title element. -/
structure Node where
  tag : String
  classes : List String
  text : String
deriving DecidableEq, Repr

/-- The element that shows the status message. -/
structure MessageElement where
  text : String
  classes : List String
deriving DecidableEq, Repr

/-- A request issued through `fetch`. -/
inductive Request where
  | getUsers : Request
  | postAddUser (username email : String) : Request
deriving DecidableEq, Repr

/-- What `console.error` was called for. -/
inductive Failure where
  | transport : Failure
  | httpStatus : Failure
  | badBody : Failure
  | dom : Failure
deriving DecidableEq, Repr

/-- The page: the global `usersCurrent`, the DOM parts the script touches, the log of
issued requests and of reported errors, the pending `setTimeout` callbacks (each one is
`clearMessage` of the message element, stored by its due time in ms) and the clock. -/
structure Page where
  usersCurrent : List User
  title : List Node
  tbody : List Row
  tableDisplay : String
  tbodyTarget : Element Handler
  form : Element Handler
  modals : List (Element Handler)
  message : MessageElement
  inputText : String
  inputEmail : String
  userId : String
  userUsername : String
  userEmail : String
  modalShown : Nat
  requests : List Request
  console : List Failure
  timers : List Nat
  now : Nat
  closures : Nat
deriving Repr

/-! ## Platform built-ins -/

/-- Insertion step of the stable sort: `a` goes before the first element it does not
compare greater than. -/
def insertStable {α : Type} (cmp : α → α → Int) (a : α) : List α → List α
  | [] => [a]
  | b :: l => if cmp a b ≤ 0 then a :: b :: l else b :: insertStable cmp a l

/-- `Array.prototype.sort(comparefn)`: a stable sort (ECMAScript 2019 and later). -/
def arraySort {α : Type} (cmp : α → α → Int) : List α → List α
  | [] => []
  | a :: l => insertStable cmp a (arraySort cmp l)

/-- A comparator that orders its arguments consistently: the sign flips when the
arguments are swapped, and "not greater" is transitive. -/
structure ConsistentComparator (cmp : String → String → Int) : Prop where
  flip : ∀ a b, cmp a b < 0 ↔ 0 < cmp b a
  trans : ∀ a b c, cmp a b ≤ 0 → cmp b c ≤ 0 → cmp a c ≤ 0

/-- A concrete consistent comparator (shorter text first, equal lengths compare
equal), used to run the model on examples. -/
def lengthCompare (a b : String) : Int :=
  (a.data.length : Int) - (b.data.length : Int)

/-- Number to string conversion of a natural number (decimal, no leading zero). -/
def numberToString (n : Nat) : String :=
  String.mk (Nat.toDigits 10 n)

/-- Value of a decimal digit character. -/
def digitValue (c : Char) : Option Nat :=
  if c.isDigit then some (c.toNat - 48) else none

/-- One more character read while converting a string to a number. -/
def parseStep (acc : Option Nat) (c : Char) : Option Nat :=
  match acc, digitValue c with
  | some n, some d => some (10 * n + d)
  | _, _ => none

/-- String to number conversion, for the unsigned decimal forms (the empty string
converts to 0); every other text is given no number here (`NaN`). -/
def stringToNumber (s : String) : Option Nat :=
  s.data.foldl parseStep (some 0)

/-- ASCII whitespace, which a class token may not contain. -/
def asciiWhitespace (c : Char) : Bool :=
  c.toNat = 9 || c.toNat = 10 || c.toNat = 12 || c.toNat = 13 || c.toNat = 32

/-- A token `DOMTokenList.add` accepts: not empty and free of ASCII whitespace. -/
def validToken (s : String) : Bool :=
  !s.data.isEmpty && s.data.all (fun c => !asciiWhitespace c)

/-- `classList.add(token)`: throws (`none`) on an invalid token, otherwise appends the
token unless it is present. -/
def classListAdd (token : String) (classes : List String) : Option (List String) :=
  if validToken token then
    some (if token ∈ classes then classes else classes ++ [token])
  else none

/-- `classList.remove(token)`. -/
def classListRemove (token : String) (classes : List String) : List String :=
  classes.filter (fun c => c ≠ token)

/-- Truthiness of a `dataset` value: `undefined` and the empty string are falsy. -/
def truthy : Option String → Bool
  | none => false
  | some s => s ≠ ""

/-- `element.addEventListener(event, func)`: a pair already bound is not bound again. -/
def addEventListener {H : Type} [DecidableEq H] (event : String) (func : H)
    (element : Element H) : Element H :=
  if (event, func) ∈ element.listeners then element
  else { element with listeners := element.listeners ++ [(event, func)] }

/-- The handlers one event of the given name fires on the element, in order. -/
def dispatch {H : Type} (event : String) (element : Element H) : List H :=
  (element.listeners.filter (fun l => l.1 = event)).map (fun l => l.2)

/-- `textContent = value` for a value that may be `undefined`. -/
def textOf : Option String → String
  | none => ""
  | some s => s

/-! ## The script -/

/-- `clearMessage(element)`. -/
def clearMessage (element : MessageElement) : MessageElement :=
  { text := "",
    classes := classListRemove "text-success" (classListRemove "text-danger" element.classes) }

/-- The part of `setMessage` that acts on the element; on a throw of `classList.add`
the element is returned as `clearMessage` left it. -/
def setMessageElement (element : MessageElement) (className message : String) :
    Except MessageElement MessageElement :=
  let cleared := clearMessage element
  match classListAdd className cleared.classes with
  | none => .error cleared
  | some cs => .ok { text := message, classes := cs }

/-- `setMessage(element, className, message)` on the message element of the page:
clear, add the class, set the text, schedule `clearMessage` 5000 ms from now.
`Except.error` carries the page as it is when `classList.add` throws. -/
def setMessage (className message : String) (p : Page) : Except Page Page :=
  match setMessageElement p.message className message with
  | .error el => .error { p with message := el }
  | .ok el => .ok { p with message := el, timers := p.timers ++ [p.now + 5000] }

/-- The clock moves to `t`: every pending timer due by then runs its callback
(`clearMessage` of the message element) and leaves the queue. -/
def advance (t : Nat) (p : Page) : Page :=
  { p with
    message := (p.timers.filter (fun due => due ≤ t)).foldl (fun m _ => clearMessage m) p.message,
    timers := p.timers.filter (fun due => ¬ due ≤ t),
    now := max p.now t }

/-- `addListener(target, event, func)` on a resolved element. -/
def addListener {H : Type} [DecidableEq H] (event : String) (func : H)
    (element : Element H) : Element H :=
  if !truthy element.listenerAdded then
    { addEventListener event func element with listenerAdded := some "true" }
  else element

/-- `removeFocus()`: one fresh arrow function per modal, offered to `addListener`. -/
def removeFocus (p : Page) : Page :=
  { p with
    modals := p.modals.enum.map
      (fun im => addListener "hide.bs.modal" (Handler.blurActive (p.closures + im.1)) im.2),
    closures := p.closures + p.modals.length }

/-- `modalInfoUser()`. -/
def modalInfoUser (p : Page) : Page :=
  let q := removeFocus p
  { q with tbodyTarget := addListener "click" Handler.handleRowClick q.tbodyTarget }

/-- The `while (parentElement.firstChild)` loop of `createTable`. -/
def removeChildren : List Row → List Row
  | [] => []
  | _ :: rest => removeChildren rest

/-- The row `createTable` builds for the user at `index`. -/
def makeRow (index : Nat) (user : User) : Row :=
  { th := numberToString (index + 1), td := user.username }

/-- `createTable(document.getElementById('tbody'), data)`. -/
def createTable (cmp : String → String → Int) (data : UsersPayload) (p : Page) : Page :=
  let sortedUsers := arraySort (fun a b => cmp a.username b.username) data.users
  { p with
    tbody := removeChildren p.tbody ++ sortedUsers.enum.map (fun iu => makeRow iu.1 iu.2),
    tableDisplay := "table",
    usersCurrent := sortedUsers }

/-- `handleRowClick(event)`; `closest` is `event.target.closest('tr')`.  A lookup that
gives `undefined` makes the first field access throw: `Except.error` with the page
untouched. -/
def handleRowClick (closest : Option Row) (p : Page) : Except Page Page :=
  match closest with
  | none => .ok p
  | some row =>
    match stringToNumber row.th with
    | none => .error p
    | some n =>
      let userIndex : Int := (n : Int) - 1
      if userIndex < 0 then .error p
      else
        match p.usersCurrent[userIndex.toNat]? with
        | none => .error p
        | some user =>
          .ok { p with
                userId := user.id,
                userUsername := user.username,
                userEmail := user.email,
                modalShown := p.modalShown + 1 }

/-- `title.querySelector('small')?.remove()`. -/
def removeFirstSmall : List Node → List Node
  | [] => []
  | n :: rest => if n.tag = "small" then rest else n :: removeFirstSmall rest

/-- The note `fetchUsers` appends to the title for an empty collection. -/
def noUsersNote : Node :=
  { tag := "small", classes := ["text-body-secondary"], text := "Пользователи отсутствуют" }

/-- `fetchUsers()`, given what the request to the list endpoint comes back with. -/
def fetchUsers (cmp : String → String → Int) (r : FetchOutcome UsersPayload) (p : Page) : Page :=
  let p1 := { p with requests := p.requests ++ [Request.getUsers] }
  match r with
  | .networkError => { p1 with console := p1.console ++ [Failure.transport] }
  | .response ok body =>
    if !ok then { p1 with console := p1.console ++ [Failure.httpStatus] }
    else
      match body with
      | none => { p1 with console := p1.console ++ [Failure.badBody] }
      | some data =>
        let p2 := { p1 with title := removeFirstSmall p1.title }
        let p3 :=
          if data.total = 0 then { p2 with title := p2.title ++ [noUsersNote] }
          else modalInfoUser (createTable cmp data p2)
        { p3 with form := addListener "submit" Handler.addUser p3.form }

/-- The `catch` block of `addUser`. -/
def addUserFailed (e : Failure) (p : Page) : Page :=
  { p with
    console := p.console ++ [e],
    message := { p.message with text := "Произошла ошибка при добавлении пользователя." } }

/-- `addUser(event)`, given what the add request and the follow-up list request come
back with. -/
def addUser (cmp : String → String → Int) (addResp : FetchOutcome AddPayload)
    (usersResp : FetchOutcome UsersPayload) (p : Page) : Page :=
  let p1 := { p with message := clearMessage p.message }
  let p2 := { p1 with requests := p1.requests ++ [Request.postAddUser p1.inputText p1.inputEmail] }
  match addResp with
  | .networkError => addUserFailed Failure.transport p2
  | .response _ none => addUserFailed Failure.badBody p2
  | .response ok (some data) =>
    if !ok then
      match setMessage "text-danger" (textOf data.error) p2 with
      | .ok q => q
      | .error q => addUserFailed Failure.dom q
    else
      match setMessage "text-success" (textOf data.message) p2 with
      | .error q => addUserFailed Failure.dom q
      | .ok q => fetchUsers cmp usersResp { q with inputText := "", inputEmail := "" }

/-- The notes (`small` elements) in the title. -/
def notes (p : Page) : List Node :=
  p.title.filter (fun n => n.tag = "small")

/-- A run of `fetchUsers` for each successful response of the list, in order. -/
def fetchAll (cmp : String → String → Int) (rs : List UsersPayload) (p : Page) : Page :=
  rs.foldl (fun q d => fetchUsers cmp (FetchOutcome.response true (some d)) q) p

/-- A page as loaded: nothing rendered, table hidden, nothing bound, one modal. -/
def emptyPage : Page :=
  { usersCurrent := [], title := [], tbody := [], tableDisplay := "none",
    tbodyTarget := { listenerAdded := none, listeners := [] },
    form := { listenerAdded := none, listeners := [] },
    modals := [{ listenerAdded := none, listeners := [] }],
    message := { text := "", classes := [] },
    inputText := "", inputEmail := "",
    userId := "", userUsername := "", userEmail := "",
    modalShown := 0, requests := [], console := [], timers := [], now := 0, closures := 0 }

/-- A page as loaded on which a first message is set at time 0. -/
def firstMessage : Except Page Page :=
  setMessage "text-danger" "e1" emptyPage

/-- The clock moves to 1000 ms and a second message is set. -/
def secondMessage : Except Page Page :=
  firstMessage >>= fun q => setMessage "text-success" "ok" (advance 1000 q)

/-- The clock moves on to 5000 ms, when the timer of the first message is due. -/
def afterFirstTimer : Except Page Page :=
  secondMessage >>= fun q => pure (advance 5000 q)

/-! ## Stable sort -/

section StableSort

variable {α : Type} (cmp : α → α → Int)

theorem insertStable_perm (a : α) (l : List α) : (insertStable cmp a l).Perm (a :: l) := by
  induction l with
  | nil => exact List.Perm.refl _
  | cons b l ih =>
    unfold insertStable
    split
    · exact List.Perm.refl _
    · exact (List.Perm.cons b ih).trans (List.Perm.swap a b l)

theorem arraySort_perm (l : List α) : (arraySort cmp l).Perm l := by
  induction l with
  | nil => exact List.Perm.refl _
  | cons a l ih =>
    unfold arraySort
    exact (insertStable_perm cmp a _).trans (List.Perm.cons a ih)

theorem arraySort_length (l : List α) : (arraySort cmp l).length = l.length :=
  (arraySort_perm cmp l).length_eq

theorem insertStable_pairwise
    (hflip : ∀ a b, cmp a b < 0 ↔ 0 < cmp b a)
    (htrans : ∀ a b c, cmp a b ≤ 0 → cmp b c ≤ 0 → cmp a c ≤ 0)
    (a : α) (l : List α) (hl : l.Pairwise (fun x y => cmp x y ≤ 0)) :
    (insertStable cmp a l).Pairwise (fun x y => cmp x y ≤ 0) := by
  induction l with
  | nil => simp [insertStable]
  | cons b l ih =>
    obtain ⟨hb, hl⟩ := List.pairwise_cons.mp hl
    unfold insertStable
    split
    · rename_i hab
      refine List.pairwise_cons.mpr ⟨?_, List.pairwise_cons.mpr ⟨hb, hl⟩⟩
      intro c hc
      rcases List.mem_cons.mp hc with rfl | hc
      · exact hab
      · exact htrans a b c hab (hb c hc)
    · rename_i hab
      refine List.pairwise_cons.mpr ⟨?_, ih hl⟩
      intro c hc
      rcases List.mem_cons.mp ((insertStable_perm cmp a l).mem_iff.mp hc) with rfl | hc
      · have h1 : 0 < cmp c b := by omega
        have h2 := (hflip b c).mpr h1
        omega
      · exact hb c hc

theorem arraySort_pairwise
    (hflip : ∀ a b, cmp a b < 0 ↔ 0 < cmp b a)
    (htrans : ∀ a b c, cmp a b ≤ 0 → cmp b c ≤ 0 → cmp a c ≤ 0)
    (l : List α) : (arraySort cmp l).Pairwise (fun x y => cmp x y ≤ 0) := by
  induction l with
  | nil => simp [arraySort]
  | cons a l ih =>
    unfold arraySort
    exact insertStable_pairwise cmp hflip htrans a _ ih

theorem insertStable_filter (q : α → Bool)
    (hq : ∀ x y, q x = true → q y = true → cmp x y ≤ 0) (a : α) (l : List α) :
    (insertStable cmp a l).filter q = (a :: l).filter q := by
  induction l with
  | nil => rfl
  | cons b l ih =>
    unfold insertStable
    split
    · rfl
    · rename_i hab
      by_cases ha : q a = true
      · have hb : q b = false := by
          by_contra hb
          exact hab (hq a b ha (by simpa using hb))
        rw [List.filter_cons_of_neg (by simp [hb]), ih]
        simp [List.filter_cons, ha, hb]
      · rw [List.filter_cons, ih]
        simp [List.filter_cons, ha]

theorem arraySort_filter (q : α → Bool)
    (hq : ∀ x y, q x = true → q y = true → cmp x y ≤ 0) (l : List α) :
    (arraySort cmp l).filter q = l.filter q := by
  induction l with
  | nil => rfl
  | cons a l ih =>
    unfold arraySort
    rw [insertStable_filter cmp q hq, List.filter_cons, List.filter_cons, ih]

end StableSort

theorem lengthCompare_consistent : ConsistentComparator lengthCompare := by
  constructor
  · intro a b
    unfold lengthCompare
    omega
  · intro a b c
    unfold lengthCompare
    omega

theorem consistent_equal_le {cmp : String → String → Int} (hc : ConsistentComparator cmp)
    (k x y : String) (hx : cmp x k = 0) (hy : cmp y k = 0) : cmp x y ≤ 0 := by
  have h1 : cmp x k ≤ 0 := by omega
  have h2 : cmp k y ≤ 0 := by
    by_contra h
    have := (hc.flip y k).mpr (by omega)
    omega
  exact hc.trans x k y h1 h2

/-! ## Table renderer -/

theorem removeChildren_eq_nil (rows : List Row) : removeChildren rows = [] := by
  induction rows with
  | nil => rfl
  | cons _ rest ih => simpa [removeChildren] using ih

theorem createTable_tbody (cmp : String → String → Int) (data : UsersPayload) (p : Page) :
    (createTable cmp data p).tbody =
      ((createTable cmp data p).usersCurrent).enum.map (fun iu => makeRow iu.1 iu.2) := by
  simp [createTable, removeChildren_eq_nil]

theorem enum_map_td (n : Nat) (us : List User) :
    ((us.enumFrom n).map (fun iu => makeRow iu.1 iu.2)).map Row.td = us.map User.username := by
  induction us generalizing n with
  | nil => rfl
  | cons u us ih =>
    show (makeRow n u).td :: ((us.enumFrom (n + 1)).map (fun iu => makeRow iu.1 iu.2)).map Row.td
      = u.username :: us.map User.username
    rw [ih (n + 1)]
    rfl

/-- C1: the usernames of the rows `createTable` appends, and `usersCurrent`, are the
input sorted ascending by username under a consistent locale comparator: a permutation
of the input, every pair (so every adjacent pair) in comparator order, and for every
key the users comparing equal to it appear in their original order. -/
theorem createTable_sorted_stable (cmp : String → String → Int)
    (hc : ConsistentComparator cmp) (data : UsersPayload) (p : Page) :
    (createTable cmp data p).tbody.map Row.td
        = (createTable cmp data p).usersCurrent.map User.username
    ∧ (createTable cmp data p).tbody.length = data.users.length
    ∧ ((createTable cmp data p).usersCurrent).Perm data.users
    ∧ ((createTable cmp data p).usersCurrent).Pairwise
        (fun a b => cmp a.username b.username ≤ 0)
    ∧ List.Chain' (fun a b => cmp a.username b.username ≤ 0)
        (createTable cmp data p).usersCurrent
    ∧ List.Chain' (fun a b => cmp a b ≤ 0) ((createTable cmp data p).tbody.map Row.td)
    ∧ ∀ k : String,
        ((createTable cmp data p).usersCurrent).filter (fun u => decide (cmp u.username k = 0))
          = data.users.filter (fun u => decide (cmp u.username k = 0)) := by
  have hs : (createTable cmp data p).usersCurrent
      = arraySort (fun a b => cmp a.username b.username) data.users := rfl
  have hpw := arraySort_pairwise (fun a b : User => cmp a.username b.username)
    (fun a b => hc.flip a.username b.username)
    (fun a b c => hc.trans a.username b.username c.username) data.users
  have htd : (createTable cmp data p).tbody.map Row.td
        = (createTable cmp data p).usersCurrent.map User.username := by
    rw [createTable_tbody]
    exact enum_map_td 0 _
  refine ⟨htd, ?_, ?_, ?_, ?_, ?_, ?_⟩
  · rw [createTable_tbody, hs]
    simp [arraySort_length]
  · rw [hs]
    exact arraySort_perm _ _
  · rw [hs]
    exact hpw
  · rw [hs]
    exact hpw.chain'
  · rw [htd, hs]
    exact (List.pairwise_map.mpr hpw).chain'
  · intro k
    rw [hs]
    apply arraySort_filter
    intro x y hx hy
    exact consistent_equal_le hc k x.username y.username (by simpa using hx) (by simpa using hy)

/-- Three users, two of them with usernames that compare equal. -/
theorem createTable_sorted_stable_witness :
    ConsistentComparator lengthCompare
    ∧ (createTable lengthCompare
        ⟨3, [⟨"1", "bob", "b@x"⟩, ⟨"2", "al", "a@x"⟩, ⟨"3", "amy", "c@x"⟩]⟩ emptyPage).tbody.map Row.td
        = ["al", "bob", "amy"] := by
  refine ⟨lengthCompare_consistent, ?_⟩
  rw [(createTable_sorted_stable lengthCompare lengthCompare_consistent
    ⟨3, [⟨"1", "bob", "b@x"⟩, ⟨"2", "al", "a@x"⟩, ⟨"3", "amy", "c@x"⟩]⟩ emptyPage).1]
  decide

/-! ## Row numbers -/

theorem digitValue_digitChar (d : Nat) (h : d < 10) : digitValue (Nat.digitChar d) = some d := by
  interval_cases d <;> rfl

theorem foldl_toDigitsCore (fuel : Nat) :
    ∀ (n : Nat) (acc : List Char), n < fuel →
      (Nat.toDigitsCore 10 fuel n acc).foldl parseStep (some 0) = acc.foldl parseStep (some n) := by
  induction fuel with
  | zero => intro n acc h; omega
  | succ fuel ih =>
    intro n acc h
    have hd : parseStep (some (n / 10)) (Nat.digitChar (n % 10)) = some n := by
      have hv := digitValue_digitChar (n % 10) (Nat.mod_lt _ (by decide))
      simp only [parseStep, hv, Option.some.injEq]
      omega
    simp only [Nat.toDigitsCore]
    split
    · rename_i h0
      rw [List.foldl_cons]
      rw [h0] at hd
      rw [hd]
    · rename_i h0
      rw [ih (n / 10) _ (by omega), List.foldl_cons, hd]

theorem stringToNumber_numberToString (n : Nat) : stringToNumber (numberToString n) = some n := by
  unfold stringToNumber numberToString Nat.toDigits
  rw [foldl_toDigitsCore (n + 1) n [] (by omega)]
  rfl

/-! ## Modal presenter -/

theorem createTable_row (cmp : String → String → Int) (data : UsersPayload) (p : Page)
    (j : Nat) (u : User) (h : (createTable cmp data p).usersCurrent[j]? = some u) :
    (createTable cmp data p).tbody[j]? = some (makeRow j u) := by
  rw [createTable_tbody, List.getElem?_map, List.getElem?_enum, h]
  rfl

theorem handleRowClick_numbered (p : Page) (row : Row) (i : Nat) (u : User) (hi : 1 ≤ i)
    (hth : row.th = numberToString i) (hu : p.usersCurrent[i - 1]? = some u) :
    handleRowClick (some row) p =
      .ok { p with
            userId := u.id,
            userUsername := u.username,
            userEmail := u.email,
            modalShown := p.modalShown + 1 } := by
  have hidx : ((i : Int) - 1).toNat = i - 1 := by omega
  have hneg : ¬ ((i : Int) - 1 < 0) := by omega
  simp only [handleRowClick, hth, stringToNumber_numberToString, hneg, if_false, hidx, hu]

/-- C2: after `createTable` has rendered `n ≥ 1` users, for `1 ≤ i ≤ n` the row numbered
`i` (the `i`-th row of the body) reads back as the number `i`, index `i - 1` is within
`usersCurrent`, and `handleRowClick` on that row sets the three modal fields to the id,
username and email of the `i`-th entry of the sorted collection, whose username is the
one the row displays. -/
theorem handleRowClick_after_createTable (cmp : String → String → Int)
    (data : UsersPayload) (p : Page) (i : Nat) (h1 : 1 ≤ i) (hn : i ≤ data.users.length) :
    ∃ (row : Row) (u : User),
      (createTable cmp data p).tbody[i - 1]? = some row
      ∧ row.th = numberToString i
      ∧ stringToNumber row.th = some i
      ∧ i - 1 < (createTable cmp data p).usersCurrent.length
      ∧ (createTable cmp data p).usersCurrent[i - 1]? = some u
      ∧ (arraySort (fun a b => cmp a.username b.username) data.users)[i - 1]? = some u
      ∧ row.td = u.username
      ∧ handleRowClick (some row) (createTable cmp data p) =
          .ok { createTable cmp data p with
                userId := u.id,
                userUsername := u.username,
                userEmail := u.email,
                modalShown := (createTable cmp data p).modalShown + 1 } := by
  have hs : (createTable cmp data p).usersCurrent
      = arraySort (fun a b => cmp a.username b.username) data.users := rfl
  have hlen : i - 1 < (createTable cmp data p).usersCurrent.length := by
    rw [hs, arraySort_length]
    omega
  obtain ⟨u, hu⟩ : ∃ u, (createTable cmp data p).usersCurrent[i - 1]? = some u :=
    ⟨_, List.getElem?_eq_getElem hlen⟩
  have hth : (makeRow (i - 1) u).th = numberToString i := by
    show numberToString (i - 1 + 1) = numberToString i
    rw [Nat.sub_add_cancel h1]
  refine ⟨makeRow (i - 1) u, u, createTable_row cmp data p _ u hu, hth, ?_, hlen, hu, ?_, rfl, ?_⟩
  · rw [hth, stringToNumber_numberToString]
  · rw [← hs]
    exact hu
  · exact handleRowClick_numbered _ _ i u h1 hth hu

/-- A click on row 2 of a rendered collection of three users. -/
theorem handleRowClick_after_createTable_witness :
    (1 ≤ 2 ∧ 2 ≤ [(⟨"1", "bob", "b@x"⟩ : User), ⟨"2", "al", "a@x"⟩, ⟨"3", "amy", "c@x"⟩].length)
    ∧ ∃ (row : Row) (u : User),
      (createTable lengthCompare
          ⟨3, [⟨"1", "bob", "b@x"⟩, ⟨"2", "al", "a@x"⟩, ⟨"3", "amy", "c@x"⟩]⟩ emptyPage).tbody[2 - 1]?
        = some row
      ∧ row.td = u.username
      ∧ handleRowClick (some row) (createTable lengthCompare
          ⟨3, [⟨"1", "bob", "b@x"⟩, ⟨"2", "al", "a@x"⟩, ⟨"3", "amy", "c@x"⟩]⟩ emptyPage) =
          .ok { createTable lengthCompare
                  ⟨3, [⟨"1", "bob", "b@x"⟩, ⟨"2", "al", "a@x"⟩, ⟨"3", "amy", "c@x"⟩]⟩ emptyPage with
                userId := u.id,
                userUsername := u.username,
                userEmail := u.email,
                modalShown := 1 } := by
  refine ⟨by decide, ?_⟩
  obtain ⟨row, u, h1, _, _, _, _, _, h7, h8⟩ := handleRowClick_after_createTable lengthCompare
    ⟨3, [⟨"1", "bob", "b@x"⟩, ⟨"2", "al", "a@x"⟩, ⟨"3", "amy", "c@x"⟩]⟩ emptyPage 2
    (by decide) (by decide)
  exact ⟨row, u, h1, h7, h8⟩

/-! ## Message display -/

theorem mem_classListRemove (t x : String) (cs : List String) :
    x ∈ classListRemove t cs ↔ x ∈ cs ∧ x ≠ t := by
  simp [classListRemove]

theorem clearMessage_text (el : MessageElement) : (clearMessage el).text = "" := rfl

theorem clearMessage_no_danger (el : MessageElement) :
    "text-danger" ∉ (clearMessage el).classes := by
  simp [clearMessage, mem_classListRemove]

theorem clearMessage_no_success (el : MessageElement) :
    "text-success" ∉ (clearMessage el).classes := by
  simp [clearMessage, mem_classListRemove]

theorem setMessage_ok (className message : String) (p : Page)
    (hv : validToken className = true) :
    setMessage className message p =
      .ok { p with
            message :=
              { text := message,
                classes :=
                  if className ∈ (clearMessage p.message).classes then
                    (clearMessage p.message).classes
                  else (clearMessage p.message).classes ++ [className] },
            timers := p.timers ++ [p.now + 5000] } := by
  simp [setMessage, setMessageElement, classListAdd, hv]

theorem mem_added_classes (c x : String) (cs : List String) :
    x ∈ (if c ∈ cs then cs else cs ++ [c]) ↔ x ∈ cs ∨ x = c := by
  split
  · constructor
    · intro h
      exact Or.inl h
    · rintro (h | rfl)
      · exact h
      · assumption
  · simp

/-! ## User fetch flow: what a run leaves alone -/

theorem fetchUsers_requests (cmp : String → String → Int) (r : FetchOutcome UsersPayload)
    (p : Page) : (fetchUsers cmp r p).requests = p.requests ++ [Request.getUsers] := by
  unfold fetchUsers
  rcases r with _ | ⟨ok, body⟩
  · rfl
  · cases ok
    · rfl
    · cases body with
      | none => rfl
      | some data =>
        simp only [Bool.not_true, Bool.false_eq_true, if_false]
        split <;> rfl

theorem fetchUsers_message (cmp : String → String → Int) (r : FetchOutcome UsersPayload)
    (p : Page) :
    (fetchUsers cmp r p).message = p.message
    ∧ (fetchUsers cmp r p).inputText = p.inputText
    ∧ (fetchUsers cmp r p).inputEmail = p.inputEmail
    ∧ (fetchUsers cmp r p).timers = p.timers
    ∧ (fetchUsers cmp r p).now = p.now := by
  unfold fetchUsers
  rcases r with _ | ⟨ok, body⟩
  · exact ⟨rfl, rfl, rfl, rfl, rfl⟩
  · cases ok
    · exact ⟨rfl, rfl, rfl, rfl, rfl⟩
    · cases body with
      | none => exact ⟨rfl, rfl, rfl, rfl, rfl⟩
      | some data =>
        simp only [Bool.not_true, Bool.false_eq_true, if_false]
        split <;> exact ⟨rfl, rfl, rfl, rfl, rfl⟩

/-! ## User add flow -/

/-- C3: when the add response has a non-success status and a JSON body with an error
text, `addUser` leaves both input fields unchanged, shows exactly that text in the
message element with `text-danger` and without `text-success`, schedules the clear of
that message, and issues no request after the add request (no fetch of the list). -/
theorem addUser_rejected (cmp : String → String → Int) (p : Page)
    (msg : Option String) (err : String) (usersResp : FetchOutcome UsersPayload) :
    (addUser cmp (.response false (some ⟨msg, some err⟩)) usersResp p).inputText = p.inputText
    ∧ (addUser cmp (.response false (some ⟨msg, some err⟩)) usersResp p).inputEmail
        = p.inputEmail
    ∧ (addUser cmp (.response false (some ⟨msg, some err⟩)) usersResp p).message.text = err
    ∧ "text-danger" ∈
        (addUser cmp (.response false (some ⟨msg, some err⟩)) usersResp p).message.classes
    ∧ "text-success" ∉
        (addUser cmp (.response false (some ⟨msg, some err⟩)) usersResp p).message.classes
    ∧ (addUser cmp (.response false (some ⟨msg, some err⟩)) usersResp p).requests
        = p.requests ++ [Request.postAddUser p.inputText p.inputEmail]
    ∧ (addUser cmp (.response false (some ⟨msg, some err⟩)) usersResp p).requests.count
        Request.getUsers = p.requests.count Request.getUsers
    ∧ (addUser cmp (.response false (some ⟨msg, some err⟩)) usersResp p).timers
        = p.timers ++ [p.now + 5000]
    ∧ (addUser cmp (.response false (some ⟨msg, some err⟩)) usersResp p).console = p.console := by
  have hv : validToken "text-danger" = true := by decide
  simp only [addUser, Bool.not_false, if_true, setMessage_ok _ _ _ hv, textOf]
  refine ⟨trivial, trivial, trivial, ?_, ?_, trivial, ?_, trivial, trivial⟩
  · exact (mem_added_classes _ _ _).mpr (Or.inr rfl)
  · intro h
    rcases (mem_added_classes _ _ _).mp h with h | h
    · exact clearMessage_no_success _ h
    · exact absurd h (by decide)
  · simp [List.count_append]

/-- C4: when the add response has a success status and a JSON body with a message text,
`addUser` reaches a page `mid` that shows that text with `text-success` (and without
`text-danger`) and has both input fields empty, and what it returns is one run of
`fetchUsers` from `mid`: the list request is the only request after the add request, and
the run leaves the message and the input fields as they are in `mid`. -/
theorem addUser_accepted (cmp : String → String → Int) (p : Page)
    (msg : String) (err : Option String) (usersResp : FetchOutcome UsersPayload) :
    ∃ mid : Page,
      mid.message.text = msg
      ∧ "text-success" ∈ mid.message.classes
      ∧ "text-danger" ∉ mid.message.classes
      ∧ mid.inputText = ""
      ∧ mid.inputEmail = ""
      ∧ mid.requests = p.requests ++ [Request.postAddUser p.inputText p.inputEmail]
      ∧ addUser cmp (.response true (some ⟨some msg, err⟩)) usersResp p
          = fetchUsers cmp usersResp mid
      ∧ (addUser cmp (.response true (some ⟨some msg, err⟩)) usersResp p).requests
          = p.requests ++ [Request.postAddUser p.inputText p.inputEmail, Request.getUsers]
      ∧ (addUser cmp (.response true (some ⟨some msg, err⟩)) usersResp p).requests.count
          Request.getUsers = p.requests.count Request.getUsers + 1
      ∧ (addUser cmp (.response true (some ⟨some msg, err⟩)) usersResp p).message = mid.message
      ∧ (addUser cmp (.response true (some ⟨some msg, err⟩)) usersResp p).inputText = ""
      ∧ (addUser cmp (.response true (some ⟨some msg, err⟩)) usersResp p).inputEmail = "" := by
  have hv : validToken "text-success" = true := by decide
  have hrun : ∃ mid : Page,
      addUser cmp (.response true (some ⟨some msg, err⟩)) usersResp p
          = fetchUsers cmp usersResp mid
      ∧ mid.message.text = msg
      ∧ mid.message.classes =
          (if "text-success" ∈ (clearMessage (clearMessage p.message)).classes then
            (clearMessage (clearMessage p.message)).classes
          else (clearMessage (clearMessage p.message)).classes ++ ["text-success"])
      ∧ mid.inputText = ""
      ∧ mid.inputEmail = ""
      ∧ mid.requests = p.requests ++ [Request.postAddUser p.inputText p.inputEmail] := by
    simp only [addUser, Bool.not_true, Bool.false_eq_true, if_false, setMessage_ok _ _ _ hv,
      textOf]
    exact ⟨_, rfl, rfl, rfl, rfl, rfl, rfl⟩
  obtain ⟨mid, hadd, htext, hcls, hi1, hi2, hreq⟩ := hrun
  obtain ⟨hm, hin1, hin2, _, _⟩ := fetchUsers_message cmp usersResp mid
  refine ⟨mid, htext, ?_, ?_, hi1, hi2, hreq, hadd, ?_, ?_, ?_, ?_, ?_⟩
  · rw [hcls]
    exact (mem_added_classes _ _ _).mpr (Or.inr rfl)
  · rw [hcls]
    intro h
    rcases (mem_added_classes _ _ _).mp h with h | h
    · exact clearMessage_no_danger _ h
    · exact absurd h (by decide)
  · rw [hadd, fetchUsers_requests, hreq]
    simp
  · rw [hadd, fetchUsers_requests, hreq]
    simp [List.count_append]
  · rw [hadd, hm]
  · rw [hadd, hin1, hi1]
  · rw [hadd, hin2, hi2]

/-! ## Listener registry -/

theorem addListener_marked {H : Type} [DecidableEq H] (event : String) (func : H)
    (element : Element H) (h : truthy element.listenerAdded = true) :
    addListener event func element = element := by
  simp [addListener, h]

theorem addListener_sets_mark {H : Type} [DecidableEq H] (event : String) (func : H)
    (element : Element H) (h : truthy element.listenerAdded = false) :
    truthy (addListener event func element).listenerAdded = true := by
  simp only [addListener, h, Bool.not_false, if_true]
  decide

theorem addListener_leaves_mark {H : Type} [DecidableEq H] (event : String) (func : H)
    (element : Element H) : truthy (addListener event func element).listenerAdded = true := by
  cases h : truthy element.listenerAdded with
  | true => rw [addListener_marked event func element h, h]
  | false => exact addListener_sets_mark event func element h

theorem dispatch_append_other {H : Type} (event : String) (func : H)
    (ls : List (String × H)) (h : ∀ l ∈ ls, l.1 ≠ event) :
    ((ls ++ [(event, func)]).filter (fun l => l.1 = event)).map (fun l => l.2) = [func] := by
  have hnil : ls.filter (fun l => decide (l.1 = event)) = [] := by
    rw [List.filter_eq_nil_iff]
    intro l hl
    simpa using h l hl
  rw [List.filter_append, hnil]
  simp

/-- C5, as stated, fails: on an element whose `listenerAdded` marker is already set
(here the text `false`, which is truthy) and which has no listener, two calls of
`addListener` bind nothing, so a click fires no handler instead of exactly one. -/
theorem addListener_marked_binds_nothing :
    (addListener "click" Handler.handleRowClick
        (addListener "click" Handler.handleRowClick
          (Element.mk (some "false") []))).listeners = []
    ∧ dispatch "click" (addListener "click" Handler.handleRowClick
        (addListener "click" Handler.handleRowClick (Element.mk (some "false") []))) = []
    ∧ ¬ (dispatch "click" (addListener "click" Handler.handleRowClick
        (addListener "click" Handler.handleRowClick (Element.mk (some "false") [])))
          = [Handler.handleRowClick]) := by
  have h : addListener "click" Handler.handleRowClick
      (addListener "click" Handler.handleRowClick (Element.mk (some "false") []))
        = Element.mk (some "false") [] := by
    rw [addListener_marked _ _ _ (by decide), addListener_marked _ _ _ (by decide)]
  rw [h]
  exact ⟨rfl, rfl, by decide⟩

/-- C5, amended: for every element, event name and handler, every `addListener` call
after the first (repeating it, or with any other event name and handler) changes
nothing.  When the element carries no truthy marker before the first call, that call
binds its handler, after the listeners already bound (a pair already bound is not bound
again); if no listener of that event name was bound before, one event of that name then
fires exactly the first call's handler, once, and on an element without any listener the
first call's handler is the only one bound.  When the element already carries a truthy
marker, the first call binds nothing either. -/
theorem addListener_binds_once {H : Type} [DecidableEq H] (element : Element H)
    (event : String) (func : H) (later : List (String × H)) :
    (∀ (ev : String) (f : H),
        addListener ev f (addListener event func element) = addListener event func element)
    ∧ later.foldl (fun e c => addListener c.1 c.2 e) (addListener event func element)
        = addListener event func element
    ∧ addListener event func (addListener event func element)
        = addListener event func element
    ∧ (truthy element.listenerAdded = false →
        (addListener event func element).listeners
            = (if (event, func) ∈ element.listeners then element.listeners
               else element.listeners ++ [(event, func)])
        ∧ ((∀ l ∈ element.listeners, l.1 ≠ event) →
            (addListener event func element).listeners = element.listeners ++ [(event, func)]
            ∧ dispatch event (addListener event func element) = [func]
            ∧ dispatch event (later.foldl (fun e c => addListener c.1 c.2 e)
                (addListener event func element)) = [func])
        ∧ (element.listeners = [] →
            (addListener event func element).listeners = [(event, func)]))
    ∧ (truthy element.listenerAdded = true → addListener event func element = element) := by
  have hstep : ∀ (ev : String) (f : H),
      addListener ev f (addListener event func element) = addListener event func element :=
    fun ev f => addListener_marked ev f _ (addListener_leaves_mark event func element)
  have hfold : later.foldl (fun e c => addListener c.1 c.2 e) (addListener event func element)
      = addListener event func element := by
    induction later with
    | nil => rfl
    | cons c rest ih => rw [List.foldl_cons, hstep, ih]
  refine ⟨hstep, hfold, hstep event func, ?_, fun h => addListener_marked event func element h⟩
  intro hmark
  have hls : (addListener event func element).listeners
      = (if (event, func) ∈ element.listeners then element.listeners
         else element.listeners ++ [(event, func)]) := by
    simp only [addListener, hmark, Bool.not_false, if_true, addEventListener]
    split <;> rfl
  refine ⟨hls, ?_, ?_⟩
  · intro hfree
    have hnot : (event, func) ∉ element.listeners := fun hin => hfree _ hin rfl
    have hl : (addListener event func element).listeners
        = element.listeners ++ [(event, func)] := by
      rw [hls, if_neg hnot]
    have hd : dispatch event (addListener event func element) = [func] := by
      unfold dispatch
      rw [hl]
      exact dispatch_append_other event func element.listeners hfree
    refine ⟨hl, hd, ?_⟩
    rw [hfold]
    exact hd
  · intro hnone
    rw [hls, hnone]
    rfl

/-- Three calls on an unmarked element that has a listener of another event; the later
two calls come with other arguments. -/
theorem addListener_binds_once_witness :
    (truthy (Element.mk none [("submit", Handler.addUser)]).listenerAdded = false
      ∧ ∀ l ∈ (Element.mk none [("submit", Handler.addUser)]).listeners, l.1 ≠ "click")
    ∧ dispatch "click" ([("click", Handler.blurActive 0), ("submit", Handler.addUser)].foldl
        (fun e c => addListener c.1 c.2 e)
        (addListener "click" Handler.handleRowClick
          (Element.mk none [("submit", Handler.addUser)])))
        = [Handler.handleRowClick] := by
  have hfree : ∀ l ∈ (Element.mk none [("submit", Handler.addUser)]).listeners,
      l.1 ≠ "click" := by
    intro l hl
    rw [List.mem_singleton.mp hl]
    decide
  exact ⟨⟨rfl, hfree⟩,
    ((addListener_binds_once (Element.mk none [("submit", Handler.addUser)]) "click"
      Handler.handleRowClick [("click", Handler.blurActive 0), ("submit", Handler.addUser)]).2.2.2.1
      rfl).2.1 hfree |>.2.2⟩

/-! ## User fetch flow -/

theorem filter_removeFirstSmall (t : List Node) :
    (removeFirstSmall t).filter (fun n => n.tag = "small")
      = (t.filter (fun n => n.tag = "small")).tail := by
  induction t with
  | nil => rfl
  | cons n rest ih =>
    unfold removeFirstSmall
    by_cases h : n.tag = "small"
    · simp [h]
    · simp [h, ih]

theorem fetchUsers_success_title (cmp : String → String → Int) (d : UsersPayload) (p : Page) :
    (fetchUsers cmp (.response true (some d)) p).title =
      if d.total = 0 then removeFirstSmall p.title ++ [noUsersNote]
      else removeFirstSmall p.title := by
  simp only [fetchUsers, Bool.not_true, Bool.false_eq_true, if_false]
  split <;> rfl

theorem fetchUsers_success_notes (cmp : String → String → Int) (d : UsersPayload) (p : Page)
    (h : (notes p).length ≤ 1) :
    notes (fetchUsers cmp (.response true (some d)) p)
      = if d.total = 0 then [noUsersNote] else [] := by
  have htail : (notes p).tail = [] := by
    cases hn : notes p with
    | nil => rfl
    | cons a rest =>
      rw [hn] at h
      cases rest with
      | nil => rfl
      | cons b rest => simp at h
  unfold notes at htail ⊢
  rw [fetchUsers_success_title]
  split
  · rw [List.filter_append, filter_removeFirstSmall, htail]
    rfl
  · rw [filter_removeFirstSmall, htail]

theorem notes_length_after_runs (cmp : String → String → Int) (rs : List UsersPayload) :
    ∀ p : Page, (notes p).length ≤ 1 → (notes (fetchAll cmp rs p)).length ≤ 1 := by
  induction rs with
  | nil => intro p h; exact h
  | cons d rest ih =>
    intro p h
    show (notes (fetchAll cmp rest (fetchUsers cmp (.response true (some d)) p))).length ≤ 1
    apply ih
    rw [fetchUsers_success_notes cmp d p h]
    split <;> simp

/-- C6: starting from a title without a note, after any non-empty sequence of successful
`fetchUsers` runs the notes of the title are exactly the one fixed secondary-text note
when the last response had `total = 0`, and there is none when the last response took
the branch for users (`total ≠ 0`); whatever the earlier responses were, so empty
responses in a row leave one note and a later populated response removes it. -/
theorem fetchAll_notes (cmp : String → String → Int) (rs : List UsersPayload)
    (d : UsersPayload) (p : Page) (h0 : notes p = []) :
    notes (fetchAll cmp (rs ++ [d]) p) = (if d.total = 0 then [noUsersNote] else [])
    ∧ noUsersNote.tag = "small"
    ∧ noUsersNote.classes = ["text-body-secondary"]
    ∧ noUsersNote.text = "Пользователи отсутствуют" := by
  refine ⟨?_, rfl, rfl, rfl⟩
  have hstep : fetchAll cmp (rs ++ [d]) p
      = fetchUsers cmp (.response true (some d)) (fetchAll cmp rs p) := by
    simp [fetchAll]
  rw [hstep]
  apply fetchUsers_success_notes
  apply notes_length_after_runs
  rw [h0]
  exact Nat.zero_le _

/-- Two empty responses, a populated one, then an empty one again. -/
theorem fetchAll_notes_witness :
    notes emptyPage = []
    ∧ notes (fetchAll lengthCompare
        ([⟨0, []⟩, ⟨0, []⟩, ⟨1, [⟨"7", "ann", "a@x"⟩]⟩] ++ [⟨0, []⟩]) emptyPage) = [noUsersNote] :=
  ⟨rfl, (fetchAll_notes lengthCompare [⟨0, []⟩, ⟨0, []⟩, ⟨1, [⟨"7", "ann", "a@x"⟩]⟩]
    ⟨0, []⟩ emptyPage rfl).1⟩

/-- C7, as stated, fails: a populated response followed by an empty one leaves the table
displayed with the row of the earlier rendering (and `usersCurrent` with its user). -/
theorem fetchUsers_empty_keeps_rendering :
    (fetchAll lengthCompare [⟨1, [⟨"7", "ann", "a@x"⟩]⟩, ⟨0, []⟩] emptyPage).tableDisplay = "table"
    ∧ (fetchAll lengthCompare [⟨1, [⟨"7", "ann", "a@x"⟩]⟩, ⟨0, []⟩] emptyPage).tbody
        = [⟨"1", "ann"⟩]
    ∧ ¬ ((fetchAll lengthCompare [⟨1, [⟨"7", "ann", "a@x"⟩]⟩, ⟨0, []⟩] emptyPage).tableDisplay
          = "none"
        ∨ (fetchAll lengthCompare [⟨1, [⟨"7", "ann", "a@x"⟩]⟩, ⟨0, []⟩] emptyPage).tbody = []) := by
  have h1 : (fetchAll lengthCompare [⟨1, [⟨"7", "ann", "a@x"⟩]⟩, ⟨0, []⟩] emptyPage).tableDisplay
      = "table" := rfl
  have h2 : (fetchAll lengthCompare [⟨1, [⟨"7", "ann", "a@x"⟩]⟩, ⟨0, []⟩] emptyPage).tbody
      = [⟨"1", "ann"⟩] := rfl
  refine ⟨h1, h2, ?_⟩
  rw [h1, h2]
  decide

/-- C7, amended: a successful `fetchUsers` run with `total = 0` that starts with the
table hidden or without rows ends with the table hidden or without rows. -/
theorem fetchUsers_empty_stays_hidden (cmp : String → String → Int) (d : UsersPayload)
    (p : Page) (h0 : d.total = 0) (hp : p.tableDisplay = "none" ∨ p.tbody = []) :
    (fetchUsers cmp (.response true (some d)) p).tableDisplay = "none"
    ∨ (fetchUsers cmp (.response true (some d)) p).tbody = [] := by
  simp only [fetchUsers, Bool.not_true, Bool.false_eq_true, if_false, h0, if_true]
  exact hp

/-- The first run on a page as loaded, with an empty response. -/
theorem fetchUsers_empty_stays_hidden_witness :
    ((0 : Int) = 0 ∧ (emptyPage.tableDisplay = "none" ∨ emptyPage.tbody = []))
    ∧ ((fetchUsers lengthCompare (.response true (some ⟨0, []⟩)) emptyPage).tableDisplay = "none"
      ∨ (fetchUsers lengthCompare (.response true (some ⟨0, []⟩)) emptyPage).tbody = []) :=
  ⟨⟨rfl, Or.inl rfl⟩,
    fetchUsers_empty_stays_hidden lengthCompare ⟨0, []⟩ emptyPage rfl (Or.inl rfl)⟩

/-- C8: a `fetchUsers` run whose request fails in transport, or whose response has a
non-success status, ends normally with the failure reported once, and changes nothing
but the request log and the error log: the title, the table body, the table display,
`usersCurrent` and the listeners of the table body, the form and the modals are as
before the run. -/
theorem fetchUsers_failure_frame (cmp : String → String → Int) (p : Page)
    (body : Option UsersPayload) :
    fetchUsers cmp .networkError p =
        { p with requests := p.requests ++ [Request.getUsers],
                 console := p.console ++ [Failure.transport] }
    ∧ fetchUsers cmp (.response false body) p =
        { p with requests := p.requests ++ [Request.getUsers],
                 console := p.console ++ [Failure.httpStatus] }
    ∧ ((fetchUsers cmp .networkError p).title = p.title
      ∧ (fetchUsers cmp .networkError p).tbody = p.tbody
      ∧ (fetchUsers cmp .networkError p).tableDisplay = p.tableDisplay
      ∧ (fetchUsers cmp .networkError p).usersCurrent = p.usersCurrent
      ∧ (fetchUsers cmp .networkError p).tbodyTarget = p.tbodyTarget
      ∧ (fetchUsers cmp .networkError p).form = p.form
      ∧ (fetchUsers cmp .networkError p).modals = p.modals
      ∧ (fetchUsers cmp .networkError p).message = p.message)
    ∧ ((fetchUsers cmp (.response false body) p).title = p.title
      ∧ (fetchUsers cmp (.response false body) p).tbody = p.tbody
      ∧ (fetchUsers cmp (.response false body) p).tableDisplay = p.tableDisplay
      ∧ (fetchUsers cmp (.response false body) p).usersCurrent = p.usersCurrent
      ∧ (fetchUsers cmp (.response false body) p).tbodyTarget = p.tbodyTarget
      ∧ (fetchUsers cmp (.response false body) p).form = p.form
      ∧ (fetchUsers cmp (.response false body) p).modals = p.modals
      ∧ (fetchUsers cmp (.response false body) p).message = p.message) :=
  ⟨rfl, rfl, ⟨rfl, rfl, rfl, rfl, rfl, rfl, rfl, rfl⟩, ⟨rfl, rfl, rfl, rfl, rfl, rfl, rfl, rfl⟩⟩

/-! ## Message expiry -/

theorem foldl_clearMessage_cleared (l : List Nat) :
    ∀ m : MessageElement,
      (m.text = "" ∧ "text-danger" ∉ m.classes ∧ "text-success" ∉ m.classes) →
      ((l.foldl (fun m _ => clearMessage m) m).text = ""
        ∧ "text-danger" ∉ (l.foldl (fun m _ => clearMessage m) m).classes
        ∧ "text-success" ∉ (l.foldl (fun m _ => clearMessage m) m).classes) := by
  induction l with
  | nil => intro m h; exact h
  | cons _ rest ih =>
    intro m _
    rw [List.foldl_cons]
    exact ih _ ⟨clearMessage_text m, clearMessage_no_danger m, clearMessage_no_success m⟩

theorem advance_message_cleared (t : Nat) (q : Page) (due : Nat) (hmem : due ∈ q.timers)
    (hdue : due ≤ t) :
    (advance t q).message.text = ""
    ∧ "text-danger" ∉ (advance t q).message.classes
    ∧ "text-success" ∉ (advance t q).message.classes := by
  have hin : due ∈ q.timers.filter (fun d => decide (d ≤ t)) := by
    simp [List.mem_filter, hmem, hdue]
  have hadv : (advance t q).message
      = (q.timers.filter (fun d => decide (d ≤ t))).foldl (fun m _ => clearMessage m)
          q.message := rfl
  rw [hadv]
  obtain ⟨a, rest, hl⟩ : ∃ a rest, q.timers.filter (fun d => decide (d ≤ t)) = a :: rest := by
    cases hl : q.timers.filter (fun d => decide (d ≤ t)) with
    | nil => rw [hl] at hin; cases hin
    | cons a rest => exact ⟨a, rest, rfl⟩
  rw [hl, List.foldl_cons]
  exact foldl_clearMessage_cleared rest _
    ⟨clearMessage_text _, clearMessage_no_danger _, clearMessage_no_success _⟩

theorem advance_message_kept (t : Nat) (q : Page) (h : ∀ due ∈ q.timers, t < due) :
    (advance t q).message = q.message := by
  have hnil : q.timers.filter (fun d => decide (d ≤ t)) = [] := by
    rw [List.filter_eq_nil_iff]
    intro d hd
    have := h d hd
    simp
    omega
  show (q.timers.filter (fun d => decide (d ≤ t))).foldl (fun m _ => clearMessage m) q.message
    = q.message
  rw [hnil]
  rfl

/-- C9: for a style class that `classList.add` accepts, `setMessage` leaves the message
element showing the text with that class and schedules one clear, due exactly 5000 ms
after the call.  While no timer is due the message stays as set, and once the clock
reaches the due time the timer has fired: the element has empty text and neither
`text-danger` nor `text-success`, and the timer has left the queue. -/
theorem setMessage_auto_clear (p : Page) (className message : String)
    (hv : validToken className = true) :
    ∃ q : Page,
      setMessage className message p = .ok q
      ∧ q.message.text = message
      ∧ className ∈ q.message.classes
      ∧ q.timers = p.timers ++ [p.now + 5000]
      ∧ q.now = p.now
      ∧ (∀ t, t < p.now + 5000 → (∀ due ∈ p.timers, t < due) →
          (advance t q).message = q.message)
      ∧ (∀ t, p.now + 5000 ≤ t →
          (advance t q).message.text = ""
          ∧ "text-danger" ∉ (advance t q).message.classes
          ∧ "text-success" ∉ (advance t q).message.classes
          ∧ p.now + 5000 ∉ (advance t q).timers) := by
  refine ⟨_, setMessage_ok className message p hv, rfl, ?_, rfl, rfl, ?_, ?_⟩
  · exact (mem_added_classes _ _ _).mpr (Or.inr rfl)
  · intro t ht hold
    apply advance_message_kept
    intro due hdue
    rcases List.mem_append.mp hdue with h | h
    · exact hold due h
    · rw [List.mem_singleton.mp h]
      exact ht
  · intro t ht
    obtain ⟨h1, h2, h3⟩ := advance_message_cleared t
      { p with
        message :=
          { text := message,
            classes :=
              if className ∈ (clearMessage p.message).classes then
                (clearMessage p.message).classes
              else (clearMessage p.message).classes ++ [className] },
        timers := p.timers ++ [p.now + 5000] }
      (p.now + 5000) (List.mem_append.mpr (Or.inr (List.mem_singleton.mpr rfl))) ht
    refine ⟨h1, h2, h3, ?_⟩
    intro hmem
    have hf : p.now + 5000 ∈ (p.timers ++ [p.now + 5000]).filter (fun d => decide (¬ d ≤ t)) :=
      hmem
    have := (List.mem_filter.mp hf).2
    simp at this
    omega

/-- A success message set on a page as loaded, at time 0. -/
theorem setMessage_auto_clear_witness :
    validToken "text-success" = true
    ∧ ∃ q : Page,
      setMessage "text-success" "ok" emptyPage = .ok q
      ∧ q.message.text = "ok"
      ∧ q.timers = [5000]
      ∧ (advance 4999 q).message.text = "ok"
      ∧ (advance 5000 q).message.text = "" := by
  refine ⟨by decide, ?_⟩
  obtain ⟨q, h1, h2, _, h4, _, h6, h7⟩ :=
    setMessage_auto_clear emptyPage "text-success" "ok" (by decide)
  refine ⟨q, h1, h2, h4, ?_, (h7 5000 (Nat.le_refl _)).1⟩
  rw [h6 4999 (by decide) (by intro due hdue; cases hdue)]
  exact h2

/-- C10 on the code: a first message is set at time 0 and a second at time 1000 (before
the first one expires).  The second message is displayed with its class, and at time
5000, earlier than 1000 + 5000, the timer of the first call has cleared it: its text
and class are gone while its own timer (due at 6000) is still pending. -/
theorem stale_timer_clears_newer_message :
    ∃ q2 q3 : Page,
      secondMessage = .ok q2
      ∧ q2.now = 1000
      ∧ q2.message = { text := "ok", classes := ["text-success"] }
      ∧ q2.timers = [5000, 6000]
      ∧ afterFirstTimer = .ok q3
      ∧ q3.now = 5000
      ∧ 5000 < 1000 + 5000
      ∧ q3.message = { text := "", classes := [] }
      ∧ q3.timers = [6000] :=
  ⟨_, _, rfl, rfl, rfl, rfl, rfl, rfl, by decide, rfl, rfl⟩

end Frontend
